import Mathlib

/-!
Verification of the NLA staff-papers scraper (src/scrape.py) against its
natural-language specification.

The script fetches one HTML listing page, locates a results container,
and converts each `li` listing node into a six-field paper record.  We give
a shallow embedding of the parsed-document tree and of every function of
the source that the claims touch, and prove or refute each claim.

Modelling conventions:
- A parsed page is a `Node` tree (text nodes and elements).  The class
  attribute is stored as its list of whitespace-separated tokens, as
  BeautifulSoup stores multi-valued attributes.
- Python exceptions become the `PyErr` type; fallible functions return
  `Except PyErr _`.
- `datetime.strptime(raw, "%d %B %Y")` is embedded as `parseDBY` plus the
  calendar validation performed by the datetime constructor.
- `datetime.now()` (used only for the default output filename) is impure
  and is passed in as an explicit `now` string parameter.
- Network fetch (`requests.get`) is out of scope; `scrape_doc` takes the
  already-parsed document, exactly as the pipeline section of the spec
  describes the extractor.
-/

/-! ## Definitions -/

/-- Parsed HTML node: a text node, or an element with a tag name, the list of
class-attribute tokens, the remaining attributes (for example `href`), and
children in document order. -/
inductive Node where
  | text (s : String)
  | elem (tag : String) (classes : List String) (attrs : List (String × String)) (children : List Node)
deriving Repr

/-- The six-field record produced for one paper listing
(`convert_raw_paper_to_dict` in the source). -/
structure Paper where
  title : String
  url : String
  authors : List String
  date : String
  abstract : String
  topics : List String
deriving Repr, DecidableEq

/-- Python exceptions that the extraction path of scrape.py can raise,
with their message payloads. -/
inductive PyErr where
  | indexError (msg : String)
  | attributeError (msg : String)
  | typeError (msg : String)
  | keyError (key : String)
  | valueError (msg : String)
deriving Repr, DecidableEq

/-- Whitespace characters recognised by the Python `str.strip`, `str.split`
and the regex class `\s` on the inputs in scope (space, tab, newline,
carriage return, vertical tab, form feed). -/
def isPyWs (c : Char) : Bool :=
  c.toNat == 32 || c.toNat == 9 || c.toNat == 10 || c.toNat == 13 || c.toNat == 11 || c.toNat == 12

/-- ASCII decimal digit, the regex class `\d` on the inputs in scope. -/
def pyDigit (c : Char) : Bool := 48 ≤ c.toNat && c.toNat ≤ 57

/-- Numeric value of a digit string. -/
def digitsVal (l : List Char) : Nat := l.foldl (fun a c => a * 10 + (c.toNat - 48)) 0

/-- ASCII lower-casing on character codes, as applied by case-insensitive
regex matching (re.IGNORECASE) for the ASCII month names in scope. -/
def lowerN (n : Nat) : Nat := if 65 ≤ n ∧ n ≤ 90 then n + 32 else n

/-- Case-insensitive match of an input character against a lowercase
target character. -/
def ciChar (c t : Char) : Bool := lowerN c.toNat == t.toNat

/-- Boolean list-prefix test (first argument is the pattern). -/
def startsWithChars : List Char → List Char → Bool
  | [], _ => true
  | _ :: _, [] => false
  | p :: ps, c :: cs => p == c && startsWithChars ps cs

/-- Boolean substring test (first argument is the pattern), the semantics of
the CSS attribute selector `[class*=marker]`. -/
def hasSubChars (pat : List Char) : List Char → Bool
  | [] => startsWithChars pat []
  | c :: cs => startsWithChars pat (c :: cs) || hasSubChars pat cs

/-- Python `str.strip()`: drop leading and trailing whitespace. -/
def stripWs (l : List Char) : List Char :=
  ((l.dropWhile isPyWs).reverse.dropWhile isPyWs).reverse

/-- Python `str.split(",")`: split on every comma, keeping empty pieces;
the split of the empty string is `[""]`. -/
def splitCommaChars : List Char → List (List Char)
  | [] => [[]]
  | c :: cs =>
    if c == ',' then [] :: splitCommaChars cs
    else
      match splitCommaChars cs with
      | [] => [[c]]
      | t :: ts => (c :: t) :: ts

mutual

/-- Concatenated text of all descendant text nodes in document order
(the BeautifulSoup `.text` property). -/
def nodeTextChars : Node → List Char
  | .text s => s.toList
  | .elem _ _ _ cs => nodesTextChars cs

/-- Text of a forest of nodes, in order. -/
def nodesTextChars : List Node → List Char
  | [] => []
  | n :: ns => nodeTextChars n ++ nodesTextChars ns

end

mutual

/-- All proper descendants of a node in document (preorder) order: the
search space of BeautifulSoup `find`, `find_all` and `select`. -/
def descendants : Node → List Node
  | .text _ => []
  | .elem _ _ _ cs => descForest cs

/-- Descendants of a forest: each root followed by its descendants. -/
def descForest : List Node → List Node
  | [] => []
  | n :: ns => n :: (descendants n ++ descForest ns)

end

/-- Whether a node is an element (a Tag, not a NavigableString). -/
def isElem : Node → Bool
  | .text _ => false
  | .elem _ _ _ _ => true

/-- Tag name of a node (text nodes get the empty name, which no lookup uses). -/
def tagOf : Node → String
  | .text _ => ""
  | .elem t _ _ _ => t

/-- Class-attribute tokens of a node. -/
def classesOf : Node → List String
  | .text _ => []
  | .elem _ cs _ _ => cs

/-- Attribute lookup `tag[key]` returning the first binding, if any. -/
def getAttr (n : Node) (key : String) : Option String :=
  match n with
  | .text _ => none
  | .elem _ _ attrs _ => ((attrs.filter (fun kv => kv.1 == key)).head?).map Prod.snd

/-- Serialisation of the class token list: tokens joined by single spaces,
the value the CSS `[class*=...]` selector tests against. -/
def joinClasses : List String → List Char
  | [] => []
  | [c] => c.toList
  | c :: cs => c.toList ++ ' ' :: joinClasses cs

/-- Whether a string contains a space character. -/
def hasSpaceChar (s : String) : Bool := s.toList.any (fun c => c == ' ')

/-- BeautifulSoup class matching used by `find(attrs=...)`: the query must
equal one of the class tokens, or (only when the query itself contains a
space) equal the whole space-joined attribute value.  This is token
matching, not substring matching. -/
def bs4ClassMatch (q : String) (n : Node) : Bool :=
  match n with
  | .text _ => false
  | .elem _ cs _ _ => cs.contains q || (hasSpaceChar q && joinClasses cs == q.toList)

/-- All descendants satisfying a predicate, in document order
(BeautifulSoup `find_all` and soupsieve `select`). -/
def findAllNodes (p : Node → Bool) (n : Node) : List Node := (descendants n).filter p

/-- First descendant satisfying a predicate (BeautifulSoup `find`),
or `none` when the page has no such element. -/
def findFirstNode (p : Node → Bool) (n : Node) : Option Node := (findAllNodes p n).head?

/-- Embedding of `item.select("div[class*=" ++ marker ++ "]")`: every
descendant div whose serialised class attribute contains the marker as a
substring, in document order. -/
def selectDivs (marker : String) (n : Node) : List Node :=
  findAllNodes (fun m => isElem m && tagOf m == "div" && hasSubChars marker.toList (joinClasses (classesOf m))) n

/-- Embedding of `div.find("span", attrs=...)` with class `field-content`:
first descendant span carrying the `field-content` class token. -/
def findFieldSpan (n : Node) : Option Node :=
  findFirstNode (fun m => isElem m && tagOf m == "span" && bs4ClassMatch "field-content" m) n

/-- Embedding of `item.find(tagname)`: first descendant element with the
given tag. -/
def findFirstTag (t : String) (n : Node) : Option Node :=
  findFirstNode (fun m => isElem m && tagOf m == t) n

/-- Embedding of `container.find_all(tagname)`: all descendant elements
with the given tag, in document order. -/
def findAllTag (t : String) (n : Node) : List Node :=
  findAllNodes (fun m => isElem m && tagOf m == t) n

/-- Lowercase English month names, indexed 1 to 12 (the `%B` names of the
C locale used by the source site). -/
def monthLower : Nat → List Char
  | 1 => "january".toList
  | 2 => "february".toList
  | 3 => "march".toList
  | 4 => "april".toList
  | 5 => "may".toList
  | 6 => "june".toList
  | 7 => "july".toList
  | 8 => "august".toList
  | 9 => "september".toList
  | 10 => "october".toList
  | 11 => "november".toList
  | 12 => "december".toList
  | _ => []

/-- The month-name alternation of the compiled `%B` pattern. -/
def monthTable : List (Nat × List Char) :=
  [(1, monthLower 1), (2, monthLower 2), (3, monthLower 3), (4, monthLower 4),
   (5, monthLower 5), (6, monthLower 6), (7, monthLower 7), (8, monthLower 8),
   (9, monthLower 9), (10, monthLower 10), (11, monthLower 11), (12, monthLower 12)]

/-- Case-insensitive test that the input list starts with the given
lowercase pattern (first argument is the pattern). -/
def ciStarts : List Char → List Char → Bool
  | [], _ => true
  | _ :: _, [] => false
  | t :: ts, c :: cs => ciChar c t && ciStarts ts cs

/-- Match one of the month names case-insensitively at the head of the
input, returning the month number and the rest of the input. -/
def tryMonths : List (Nat × List Char) → List Char → Option (Nat × List Char)
  | [], _ => none
  | (m, name) :: rest, l =>
    if ciStarts name l then some (m, l.drop name.length) else tryMonths rest l

/-- The regex phase of `datetime.strptime(raw, "%d %B %Y")`: a one or two
digit day in 1..31, one or more whitespace characters, a full English month
name matched case-insensitively, more whitespace, and exactly four digits
ending the string.  Returns `(year, month, day)` on a match. -/
def parseDBY (l : List Char) : Option (Nat × Nat × Nat) :=
  let ds := l.takeWhile pyDigit
  let r1 := l.dropWhile pyDigit
  if 1 ≤ ds.length ∧ ds.length ≤ 2 ∧ 1 ≤ digitsVal ds ∧ digitsVal ds ≤ 31 then
    match r1 with
    | [] => none
    | c :: _ =>
      if isPyWs c then
        match tryMonths monthTable (r1.dropWhile isPyWs) with
        | none => none
        | some (m, r3) =>
          match r3 with
          | [] => none
          | c2 :: _ =>
            if isPyWs c2 then
              let r4 := r3.dropWhile isPyWs
              if r4.length == 4 && r4.all pyDigit then some (digitsVal r4, m, digitsVal ds)
              else none
            else none
      else none
  else none

/-- Gregorian leap-year rule used by `datetime`. -/
def isLeap (y : Nat) : Bool := y % 4 == 0 && (y % 100 != 0 || y % 400 == 0)

/-- Number of days in a month of a given year. -/
def monthLen (y m : Nat) : Nat :=
  match m with
  | 2 => if isLeap y then 29 else 28
  | 4 => 30
  | 6 => 30
  | 9 => 30
  | 11 => 30
  | _ => 31

/-- Decimal digit character of `n % 10`. -/
def digitChar (n : Nat) : Char :=
  match n % 10 with
  | 0 => '0' | 1 => '1' | 2 => '2' | 3 => '3' | 4 => '4'
  | 5 => '5' | 6 => '6' | 7 => '7' | 8 => '8' | _ => '9'

/-- Two-digit zero-padded rendering. -/
def pad2 (n : Nat) : List Char := [digitChar (n / 10), digitChar n]

/-- Four-digit zero-padded rendering. -/
def pad4 (n : Nat) : List Char := [digitChar (n / 1000), digitChar (n / 100), digitChar (n / 10), digitChar n]

/-- `date.isoformat()`: the string YYYY-MM-DD. -/
def isoFmt (y m d : Nat) : String := (pad4 y ++ '-' :: (pad2 m ++ '-' :: pad2 d)).asString

/-- Full `datetime.strptime(raw, "%d %B %Y").date().isoformat()`: regex
match, then the calendar validation done by the datetime constructor
(year at least 1, day within the month), then ISO-8601 rendering.  Any
failure is a ValueError. -/
def strptimeToIso (l : List Char) : Except PyErr String :=
  match parseDBY l with
  | none =>
    .error (.valueError ("time data \x27" ++ l.asString ++ "\x27 does not match format \x27%d %B %Y\x27"))
  | some (y, m, d) =>
    if y = 0 then .error (.valueError "year 0 is out of range")
    else if d ≤ monthLen y m then .ok (isoFmt y m d)
    else .error (.valueError "day is out of range for month")

/-- Embedding of `get_author_list` (scrape.py lines 54-66): first
`div[class*=paper-author]`, its first `field-content` span, split the text
on commas and strip each piece.  A missing div raises IndexError from the
`[0]` subscript; a missing span raises AttributeError from `.text` on None. -/
def get_author_list (item : Node) : Except PyErr (List String) :=
  match selectDivs "paper-author" item with
  | [] => .error (.indexError "list index out of range")
  | author_div :: _ =>
    match findFieldSpan author_div with
    | none => .error (.attributeError "\x27NoneType\x27 object has no attribute \x27text\x27")
    | some sp =>
      .ok ((splitCommaChars (nodeTextChars sp)).map (fun a => (stripWs a).asString))

/-- Embedding of `get_topics_list` (scrape.py lines 69-81): the same steps
with the `paper-topics` marker. -/
def get_topics_list (item : Node) : Except PyErr (List String) :=
  match selectDivs "paper-topics" item with
  | [] => .error (.indexError "list index out of range")
  | topic_div :: _ =>
    match findFieldSpan topic_div with
    | none => .error (.attributeError "\x27NoneType\x27 object has no attribute \x27text\x27")
    | some sp =>
      .ok ((splitCommaChars (nodeTextChars sp)).map (fun t => (stripWs t).asString))

/-- Embedding of `get_abstract` (scrape.py lines 84-94): text of the first
`div[class*=paper-abstract]`, stripped. -/
def get_abstract (item : Node) : Except PyErr String :=
  match selectDivs "paper-abstract" item with
  | [] => .error (.indexError "list index out of range")
  | d :: _ => .ok ((stripWs (nodeTextChars d)).asString)

/-- Embedding of `get_date` (scrape.py lines 97-110): first
`div[class*=paper-pubdate]`, its `field-content` span, stripped text,
parsed with `strptime("%d %B %Y")` and reformatted to ISO-8601. -/
def get_date (item : Node) : Except PyErr String :=
  match selectDivs "paper-pubdate" item with
  | [] => .error (.indexError "list index out of range")
  | date_div :: _ =>
    match findFieldSpan date_div with
    | none => .error (.attributeError "\x27NoneType\x27 object has no attribute \x27text\x27")
    | some sp => strptimeToIso (stripWs (nodeTextChars sp))

/-- The fixed site origin prepended to the heading link. -/
def siteOrigin : String := "https://www.nla.gov.au"

/-- Embedding of `convert_raw_paper_to_dict` (scrape.py lines 113-129):
title from the first h3, url from the origin plus the href of the first
link inside the h3, then the four field extractors, evaluated in the order
of the dict literal.  `.text` on a missing h3 raises AttributeError,
subscripting a missing link raises TypeError, and a link without href
raises KeyError. -/
def convert_raw_paper_to_dict (item : Node) : Except PyErr Paper :=
  match findFirstTag "h3" item with
  | none => .error (.attributeError "\x27NoneType\x27 object has no attribute \x27text\x27")
  | some h3 =>
    match findFirstTag "a" h3 with
    | none => .error (.typeError "\x27NoneType\x27 object is not subscriptable")
    | some link =>
      match getAttr link "href" with
      | none => .error (.keyError "href")
      | some href =>
        match get_author_list item with
        | .error e => .error e
        | .ok authors =>
          match get_date item with
          | .error e => .error e
          | .ok date =>
            match get_abstract item with
            | .error e => .error e
            | .ok abs =>
              match get_topics_list item with
              | .error e => .error e
              | .ok topics =>
                .ok { title := (nodeTextChars h3).asString
                      url := siteOrigin ++ href
                      authors := authors
                      date := date
                      abstract := abs
                      topics := topics }

/-- Embedding of `extract_raw_search_results` (scrape.py lines 41-51):
`soup.find(attrs={"class": "search-results"}).find_all("li")`.  When no
element carries the `search-results` class token, `find` returns None and
the `find_all` attribute access raises AttributeError. -/
def extract_raw_search_results (page : Node) : Except PyErr (List Node) :=
  match findFirstNode (bs4ClassMatch "search-results") page with
  | none => .error (.attributeError "\x27NoneType\x27 object has no attribute \x27find_all\x27")
  | some container => .ok (findAllTag "li" container)

/-- The accumulation loop of `scrape` (scrape.py lines 144-146): process
the results in order, appending each converted record. -/
def scrapeLoop : List Node → List Paper → Except PyErr (List Paper)
  | [], acc => .ok acc
  | r :: rs, acc =>
    match convert_raw_paper_to_dict r with
    | .error e => .error e
    | .ok p => scrapeLoop rs (acc ++ [p])

/-- Embedding of `scrape` (scrape.py lines 132-147) applied to the already
parsed page (the network fetch is external input). -/
def scrape_doc (page : Node) : Except PyErr (List Paper) :=
  match extract_raw_search_results page with
  | .error e => .error e
  | .ok search_results => scrapeLoop search_results []

/-- Whether a string ends with `.json` (Python `str.endswith(".json")`). -/
def endsWithJson (s : String) : Bool :=
  startsWithChars ".json".toList.reverse s.toList.reverse

/-- Whether a string ends with a slash. -/
def strEndsWithSlash (s : String) : Bool :=
  match s.toList.getLast? with
  | some c => c == '/'
  | none => false

/-- `os.path.join(a, b)` for POSIX paths with two components, as used by
`add_filename_default`. -/
def osPathJoin (a b : String) : String :=
  if startsWithChars ['/'] b.toList then b
  else if a == "" || strEndsWithSlash a then a ++ b
  else a ++ "/" ++ b

/-- Embedding of `add_filename_default` (scrape.py lines 175-189) with the
`datetime.now().strftime(...)` timestamp passed in as `now`: when the path
does not end in `.json`, join it with the generated `now ++ ".json"`
filename, otherwise return it unchanged. -/
def add_filename_default (now outpath : String) : String :=
  if !(endsWithJson outpath) then osPathJoin outpath (now ++ ".json") else outpath

/-- The output-path computation of `main` (scrape.py lines 196-197): the
same suffix test guards the call to `add_filename_default`. -/
def mainOutpath (now outpath : String) : String :=
  if !(endsWithJson outpath) then add_filename_default now outpath else outpath

/-- The parameterised "extract comma-list field" primitive that section 4.2
of the spec describes: locate the first descendant div whose class contains
the marker, take its nested field-content span, split the text on commas
and trim each piece. -/
def extract_comma_list_field (marker : String) (item : Node) : Except PyErr (List String) :=
  match selectDivs marker item with
  | [] => .error (.indexError "list index out of range")
  | d :: _ =>
    match findFieldSpan d with
    | none => .error (.attributeError "\x27NoneType\x27 object has no attribute \x27text\x27")
    | some sp =>
      .ok ((splitCommaChars (nodeTextChars sp)).map (fun piece => (stripWs piece).asString))

/-- The comma-split rule as the spec states it: split the text on the comma
character and trim surrounding whitespace from each piece, keeping empty
entries and their order. -/
def commaSplitTrim (s : String) : List String :=
  (splitCommaChars s.toList).map (fun piece => (stripWs piece).asString)

/-- Rejoining the comma-split pieces with commas, to state that the split
loses nothing and keeps order. -/
def joinCommas : List (List Char) → List Char
  | [] => []
  | [x] => x
  | x :: xs => x ++ ',' :: joinCommas xs

/-- Concrete listing node for the C2 witness: an author div with the text
"A,, B" and a topics div with the text "Jane Doe, John Smith". -/
def c2Item : Node :=
  .elem "li" [] []
    [ .elem "div" ["paper-author"] []
        [.elem "span" ["field-content"] [] [.text "A,, B"]]
    , .elem "div" ["paper-topics"] []
        [.elem "span" ["field-content"] [] [.text "Jane Doe, John Smith"]] ]

/-- Concrete node for the C10 witness whose href is already an absolute
URL. -/
def c10Item : Node :=
  .elem "li" [] []
    [ .elem "h3" [] [] [.elem "a" [] [("href", "https://example.com/pub/9")] [.text "T"]]
    , .elem "div" ["paper-author"] [] [.elem "span" ["field-content"] [] [.text "A"]]
    , .elem "div" ["paper-topics"] [] [.elem "span" ["field-content"] [] [.text "X"]]
    , .elem "div" ["paper-abstract"] [] [.text "B"]
    , .elem "div" ["paper-pubdate"] [] [.elem "span" ["field-content"] [] [.text "5 May 2021"]] ]

/-- The record produced for `c10Item`. -/
def c10Paper : Paper :=
  { title := "T", url := "https://www.nla.gov.au" ++ "https://example.com/pub/9",
    authors := ["A"], date := "2021-05-05", abstract := "B", topics := ["X"] }

/-- Bare listing node used by the C8 counterexample: no field divs at all. -/
def c8Bare : Node := .elem "li" [] [] []

/-- Listing node whose divs exist but lack the field-content span, for the
C8 witness. -/
def c8NoSpan : Node :=
  .elem "li" [] []
    [ .elem "div" ["paper-author"] [] [.text "A"]
    , .elem "div" ["paper-pubdate"] [] [.text "5 May 2021"] ]

/-- Document with no results container anywhere, for the C3 witness. -/
def c3NoContainer : Node :=
  .elem "[document]" [] [] [.elem "div" ["content"] [] [.elem "li" [] [] [.text "x"]]]

/-- Document whose results container is present but holds zero list items,
for the C3 witness. -/
def c3EmptyContainer : Node :=
  .elem "[document]" [] [] [.elem "div" ["search-results"] [] [.elem "p" [] [] [.text "none"]]]

/-- First listing node for the C4 witness. -/
def c4ItemA : Node :=
  .elem "li" [] []
    [ .elem "h3" [] [] [.elem "a" [] [("href", "/pub/1")] [.text "P1"]]
    , .elem "div" ["paper-author"] [] [.elem "span" ["field-content"] [] [.text "A1"]]
    , .elem "div" ["paper-topics"] [] [.elem "span" ["field-content"] [] [.text "T1"]]
    , .elem "div" ["paper-abstract"] [] [.text "B1"]
    , .elem "div" ["paper-pubdate"] [] [.elem "span" ["field-content"] [] [.text "1 January 2020"]] ]

/-- Second listing node for the C4 witness. -/
def c4ItemB : Node :=
  .elem "li" [] []
    [ .elem "h3" [] [] [.elem "a" [] [("href", "/pub/2")] [.text "P2"]]
    , .elem "div" ["paper-author"] [] [.elem "span" ["field-content"] [] [.text "A2"]]
    , .elem "div" ["paper-topics"] [] [.elem "span" ["field-content"] [] [.text "T2"]]
    , .elem "div" ["paper-abstract"] [] [.text "B2"]
    , .elem "div" ["paper-pubdate"] [] [.elem "span" ["field-content"] [] [.text "31 December 1999"]] ]

/-- Two-listing document for the C4 witness. -/
def c4Doc : Node :=
  .elem "[document]" [] [] [.elem "div" ["search-results"] [] [.elem "ul" [] [] [c4ItemA, c4ItemB]]]

/-- Record produced from the first C4 listing. -/
def c4PaperA : Paper :=
  { title := "P1", url := "https://www.nla.gov.au/pub/1", authors := ["A1"],
    date := "2020-01-01", abstract := "B1", topics := ["T1"] }

/-- Record produced from the second C4 listing. -/
def c4PaperB : Paper :=
  { title := "P2", url := "https://www.nla.gov.au/pub/2", authors := ["A2"],
    date := "1999-12-31", abstract := "B2", topics := ["T2"] }

/-- Fully convertible listing node preceding the failure, for C5. -/
def c5Good : Node :=
  .elem "li" [] []
    [ .elem "h3" [] [] [.elem "a" [] [("href", "/pub/7")] [.text "G"]]
    , .elem "div" ["paper-author"] [] [.elem "span" ["field-content"] [] [.text "A"]]
    , .elem "div" ["paper-topics"] [] [.elem "span" ["field-content"] [] [.text "T"]]
    , .elem "div" ["paper-abstract"] [] [.text "B"]
    , .elem "div" ["paper-pubdate"] [] [.elem "span" ["field-content"] [] [.text "2 March 2022"]] ]

/-- Listing with no h3 heading: converting it raises the AttributeError,
for C5. -/
def c5Bad : Node := .elem "li" [] [] [.text "broken"]

/-- Listing after the failing one (never reached), for C5. -/
def c5Post : Node := .elem "li" [] [] [.text "after"]

/-- Document for the C5 witness: a convertible listing followed by a bare
listing with no heading, then another listing. -/
def c5Doc : Node :=
  .elem "[document]" [] []
    [.elem "div" ["search-results"] [] [.elem "ul" [] [] [c5Good, c5Bad, c5Post]]]

/-- Document whose only candidate container carries the results marker only
inside a longer class token, for the C6 counterexample. -/
def c6Doc : Node :=
  .elem "[document]" [] [] [.elem "div" ["xsearch-resultsz"] [] [.elem "li" [] [] [.text "x"]]]

/-- Listing node whose author div holds the field marker only inside the
longer token "xpaper-authorz", for the C6 witness. -/
def c6FieldItem : Node := .elem "li" [] [] [.elem "div" ["xpaper-authorz"] [] []]

/-- Document whose container carries "search-results" as a proper token
among others, for the C6 witness. -/
def c6TokenDoc : Node :=
  .elem "[document]" [] [] [.elem "div" ["a", "search-results", "b"] [] [.elem "li" [] [] []]]

/-- Case-insensitive equality of an input string with a lowercase target
(used to state "an English full month name matched case-insensitively"). -/
def ciSame : List Char → List Char → Bool
  | [], [] => true
  | [], _ :: _ => false
  | _ :: _, [] => false
  | c :: cs, t :: ts => ciChar c t && ciSame cs ts

/-- Day field of the date text: all digits, value 1 to 31, written with one
or two digits (unpadded or zero-padded). -/
def DaySpec (l : List Char) (d : Nat) : Prop :=
  (∀ c ∈ l, pyDigit c = true) ∧ digitsVal l = d ∧ 1 ≤ d ∧ d ≤ 31
    ∧ (l.length = 1 ∨ l.length = 2)

/-- A nonempty run of whitespace characters separating the fields. -/
def WsRun (l : List Char) : Prop := l ≠ [] ∧ ∀ c ∈ l, isPyWs c = true

/-- Month field: a full English month name, compared case-insensitively. -/
def MonthSpec (l : List Char) (m : Nat) : Prop :=
  1 ≤ m ∧ m ≤ 12 ∧ ciSame l (monthLower m) = true

/-- Year field: exactly four digits. -/
def YearSpec (l : List Char) (y : Nat) : Prop :=
  (∀ c ∈ l, pyDigit c = true) ∧ digitsVal l = y ∧ l.length = 4

/-- The date text accepted by the embedded strptime, as the amended claim
words it: a day, whitespace, a case-insensitive English month name,
whitespace, and a four-digit year. -/
def DateTextForm (s : List Char) (y m d : Nat) : Prop :=
  ∃ dl w1 ml w2 yl, s = dl ++ w1 ++ ml ++ w2 ++ yl
    ∧ DaySpec dl d ∧ WsRun w1 ∧ MonthSpec ml m ∧ WsRun w2 ∧ YearSpec yl y

/-- Capitalised English month names exactly as the claim exhibits them. -/
def monthCap : Nat → List Char
  | 1 => "January".toList
  | 2 => "February".toList
  | 3 => "March".toList
  | 4 => "April".toList
  | 5 => "May".toList
  | 6 => "June".toList
  | 7 => "July".toList
  | 8 => "August".toList
  | 9 => "September".toList
  | 10 => "October".toList
  | 11 => "November".toList
  | 12 => "December".toList
  | _ => []

/-- The capitalised month-name table. -/
def monthCapTable : List (Nat × List Char) :=
  [(1, monthCap 1), (2, monthCap 2), (3, monthCap 3), (4, monthCap 4),
   (5, monthCap 5), (6, monthCap 6), (7, monthCap 7), (8, monthCap 8),
   (9, monthCap 9), (10, monthCap 10), (11, monthCap 11), (12, monthCap 12)]

/-- Match one of the month names exactly (case-sensitively) at the head of
the input. -/
def tryMonthsExact : List (Nat × List Char) → List Char → Option (Nat × List Char)
  | [], _ => none
  | (m, name) :: rest, l =>
    if startsWithChars name l then some (m, l.drop name.length) else tryMonthsExact rest l

/-- The date form exactly as claim C1 words it: an unpadded-or-two-digit
day, a single space, an English full month name written as in prose
("January", ...), a single space, a four-digit year, naming a valid
calendar date. -/
def strictDateForm (s : String) : Bool :=
  let l := s.toList
  let ds := l.takeWhile pyDigit
  let r1 := l.dropWhile pyDigit
  if 1 ≤ ds.length ∧ ds.length ≤ 2 ∧ 1 ≤ digitsVal ds ∧ digitsVal ds ≤ 31 then
    match r1 with
    | ' ' :: r2 =>
      match tryMonthsExact monthCapTable r2 with
      | some (m, ' ' :: r4) =>
        if r4.length == 4 && r4.all pyDigit then
          decide (1 ≤ digitsVal r4) && decide (digitsVal ds ≤ monthLen (digitsVal r4) m)
        else false
      | _ => false
    | _ => false
  else false

/-- Pubdate-only listing node whose span text has an upper-case month, for
the C1 counterexample. -/
def c1Item : Node :=
  .elem "li" [] []
    [.elem "div" ["paper-pubdate"] []
      [.elem "span" ["field-content"] [] [.text "1 JANUARY 2020"]]]

/-- Pubdate-only listing node with the zero-padded, mixed-whitespace text
"05 May 2021", for the C1 witness. -/
def c1WItem : Node :=
  .elem "li" [] []
    [.elem "div" ["paper-pubdate"] []
      [.elem "span" ["field-content"] [] [.text "05 May 2021"]]]

/-! ## Lemmas and claim theorems -/

theorem splitCommaChars_ne_nil (l : List Char) : splitCommaChars l ≠ [] := by
  cases l with
  | nil => simp [splitCommaChars]
  | cons c cs =>
    simp only [splitCommaChars]
    split
    · simp
    · cases splitCommaChars cs <;> simp

theorem splitCommaChars_length (l : List Char) :
    (splitCommaChars l).length = l.count ',' + 1 := by
  induction l with
  | nil => rfl
  | cons c cs ih =>
    by_cases hc : c = ','
    · subst hc
      simp [splitCommaChars, List.count_cons, ih]
    · have hc2 : ¬ (',' = c) := fun h => hc h.symm
      have hne := splitCommaChars_ne_nil cs
      cases hs : splitCommaChars cs with
      | nil => exact absurd hs hne
      | cons t ts =>
        rw [hs] at ih
        simp only [List.length_cons] at ih
        simp [splitCommaChars, hc, hc2, hs, List.count_cons]
        omega

theorem dataAsString (l : List Char) : (List.asString l).data = l := rfl

theorem joinCommas_splitCommaChars (l : List Char) :
    joinCommas (splitCommaChars l) = l := by
  induction l with
  | nil => rfl
  | cons c cs ih =>
    by_cases hc : c = ','
    · subst hc
      cases hs : splitCommaChars cs with
      | nil => exact absurd hs (splitCommaChars_ne_nil cs)
      | cons t ts =>
        rw [hs] at ih
        simp [splitCommaChars, hs, joinCommas, ih]
    · cases hs : splitCommaChars cs with
      | nil => exact absurd hs (splitCommaChars_ne_nil cs)
      | cons t ts =>
        rw [hs] at ih
        cases ts with
        | nil =>
          simp only [joinCommas] at ih
          simp [splitCommaChars, hc, hs, joinCommas, ih]
        | cons u us =>
          simp only [joinCommas] at ih
          simp [splitCommaChars, hc, hs, joinCommas, ih]

/-- C9: `get_topics_list` computes the identical algorithm to
`get_author_list` with only the marker string changed: on every paper node
both equal the single common extractor `extract_comma_list_field`
parameterised by the class-marker substring. -/
theorem claim_C9_shared_extractor (item : Node) :
    get_author_list item = extract_comma_list_field "paper-author" item
    ∧ get_topics_list item = extract_comma_list_field "paper-topics" item :=
  ⟨rfl, rfl⟩

/-- C2: whenever the field lookup succeeds, `get_author_list` (and
identically `get_topics_list`) returns exactly the comma-split of the span
text with each piece stripped; the split keeps one piece per comma plus
one (so empty entries are never filtered) and rejoining the raw pieces
restores the text (so order and content are preserved); the three examples
of the claim evaluate as stated. -/
theorem claim_C2_comma_split :
    (∀ (item dv sp : Node) (rest : List Node),
        selectDivs "paper-author" item = dv :: rest →
        findFieldSpan dv = some sp →
        get_author_list item = Except.ok (commaSplitTrim (nodeTextChars sp).asString))
    ∧ (∀ (item dv sp : Node) (rest : List Node),
        selectDivs "paper-topics" item = dv :: rest →
        findFieldSpan dv = some sp →
        get_topics_list item = Except.ok (commaSplitTrim (nodeTextChars sp).asString))
    ∧ (∀ l : List Char, (splitCommaChars l).length = l.count ',' + 1)
    ∧ (∀ l : List Char, joinCommas (splitCommaChars l) = l)
    ∧ commaSplitTrim "Jane Doe, John Smith" = ["Jane Doe", "John Smith"]
    ∧ commaSplitTrim "Solo Author" = ["Solo Author"]
    ∧ commaSplitTrim "A,, B" = ["A", "", "B"] := by
  refine ⟨?_, ?_, splitCommaChars_length, joinCommas_splitCommaChars, by decide, by decide, by decide⟩
  · intro item dv sp rest hsel hspan
    simp [get_author_list, hsel, hspan, commaSplitTrim, String.toList, dataAsString]
  · intro item dv sp rest hsel hspan
    simp [get_topics_list, hsel, hspan, commaSplitTrim, String.toList, dataAsString]

/-- Witness for C2 at a concrete node: empty entries survive and pieces
are trimmed, for authors and topics alike. -/
theorem claim_C2_comma_split_witness :
    get_author_list c2Item = Except.ok ["A", "", "B"]
    ∧ get_topics_list c2Item = Except.ok ["Jane Doe", "John Smith"] := by
  constructor
  · exact claim_C2_comma_split.1 c2Item _ _ _ rfl rfl
  · exact (claim_C2_comma_split.2).1 c2Item _ _ _ rfl rfl

/-- C10: whenever a record is produced, its url field is the fixed string
"https://www.nla.gov.au" concatenated with the heading-link href verbatim;
nothing inspects the href, so an absolute href is prefixed all the same. -/
theorem claim_C10_url (item h3n link : Node) (href : String) (p : Paper)
    (h1 : findFirstTag "h3" item = some h3n)
    (h2 : findFirstTag "a" h3n = some link)
    (h3 : getAttr link "href" = some href)
    (hc : convert_raw_paper_to_dict item = Except.ok p) :
    p.url = "https://www.nla.gov.au" ++ href := by
  simp only [convert_raw_paper_to_dict, h1, h2, h3] at hc
  cases hA : get_author_list item <;> rw [hA] at hc
  · exact absurd hc (by simp)
  cases hD : get_date item <;> rw [hD] at hc
  · exact absurd hc (by simp)
  cases hB : get_abstract item <;> rw [hB] at hc
  · exact absurd hc (by simp)
  cases hT : get_topics_list item <;> rw [hT] at hc
  · exact absurd hc (by simp)
  simp only [Except.ok.injEq] at hc
  rw [← hc]
  rfl

/-- Witness for C10: the already-absolute href still gets the site origin
prepended. -/
theorem claim_C10_url_witness :
    c10Paper.url = "https://www.nla.gov.au" ++ "https://example.com/pub/9" :=
  claim_C10_url c10Item (.elem "h3" [] [] [.elem "a" [] [("href", "https://example.com/pub/9")] [.text "T"]])
    (.elem "a" [] [("href", "https://example.com/pub/9")] [.text "T"])
    "https://example.com/pub/9" c10Paper rfl rfl rfl rfl

/-- C7 counterexample: "/data/report.txt" is an explicit file path (it
names a file, not a directory), yet it is not used as-is: because it does
not end in ".json" the timestamped filename is appended to it.  The
directory-versus-file wording of the claim does not describe the code; the
test is purely the ".json" suffix. -/
theorem claim_C7_counterexample :
    add_filename_default "2021-05-05-01-02-03" "/data/report.txt" ≠ "/data/report.txt"
    ∧ add_filename_default "2021-05-05-01-02-03" "/data/report.txt"
        = "/data/report.txt/2021-05-05-01-02-03.json" := by
  exact ⟨by decide, rfl⟩

theorem startsSlash_append (a b : List Char)
    (ha : startsWithChars ['/'] a = false) (hb : startsWithChars ['/'] b = false) :
    startsWithChars ['/'] (a ++ b) = false := by
  cases a with
  | nil => simpa using hb
  | cons c cs =>
    simp only [startsWithChars, Bool.and_eq_false_iff] at ha ⊢
    exact ha

/-- C7 amended: the written target is decided by the ".json" suffix alone.
A path ending in ".json" is used as-is; any other path - directory or
file - gets the auto-generated timestamped "now.json" filename joined onto
it, and `main` applies the same suffix test before calling
`add_filename_default`. -/
theorem claim_C7_outpath (now outpath : String) :
    (endsWithJson outpath = true →
        add_filename_default now outpath = outpath
        ∧ mainOutpath now outpath = outpath)
    ∧ (endsWithJson outpath = false →
        startsWithChars ['/'] now.toList = false →
        mainOutpath now outpath = add_filename_default now outpath
        ∧ add_filename_default now outpath =
            (if (outpath == "" || strEndsWithSlash outpath) = true
             then outpath ++ (now ++ ".json")
             else outpath ++ "/" ++ (now ++ ".json"))) := by
  constructor
  · intro h
    constructor
    · simp [add_filename_default, h]
    · simp [mainOutpath, add_filename_default, h]
  · intro h hn
    have hnj : startsWithChars ['/'] (now.data ++ ['.', 'j', 's', 'o', 'n']) = false :=
      startsSlash_append now.data ['.', 'j', 's', 'o', 'n'] hn (by decide)
    constructor
    · simp [mainOutpath, add_filename_default, h]
    · by_cases hb : (outpath == "" || strEndsWithSlash outpath) = true
      · simp [add_filename_default, h, osPathJoin, hnj, hb]
      · simp [add_filename_default, h, osPathJoin, hnj, hb]

/-- Witness for C7 amended: a ".json" path is returned unchanged, and a
non-".json" path gets "/" and the timestamped filename appended. -/
theorem claim_C7_outpath_witness :
    add_filename_default "2021-01-02-03-04-05" "/tmp/out.json" = "/tmp/out.json"
    ∧ add_filename_default "2021-01-02-03-04-05" "/tmp/dir"
        = "/tmp/dir" ++ "/" ++ ("2021-01-02-03-04-05" ++ ".json") := by
  constructor
  · exact ((claim_C7_outpath "2021-01-02-03-04-05" "/tmp/out.json").1 (by decide)).1
  · have h := ((claim_C7_outpath "2021-01-02-03-04-05" "/tmp/dir").2 (by decide) (by decide)).2
    rw [h, if_neg (by decide)]

/-- C8 counterexample: on a node missing every marker div, all four field
extractors fail with the very same error value, a bare IndexError with the
constant message "list index out of range".  The error identifies neither
which of the four fields failed nor the position of the node in the
candidate set, contrary to the claim. -/
theorem claim_C8_counterexample :
    get_author_list c8Bare = Except.error (.indexError "list index out of range")
    ∧ get_topics_list c8Bare = Except.error (.indexError "list index out of range")
    ∧ get_abstract c8Bare = Except.error (.indexError "list index out of range")
    ∧ get_date c8Bare = Except.error (.indexError "list index out of range") :=
  ⟨rfl, rfl, rfl, rfl⟩

/-- C8 amended: when the marker div is absent the extractor fails with the
generic IndexError "list index out of range", and when the div is present
but its field-content span is absent the three span-reading extractors
fail with the generic AttributeError on None; the error values are fixed
constants that identify neither the field nor the node index. -/
theorem claim_C8_errors (item : Node) :
    (selectDivs "paper-author" item = [] →
        get_author_list item = Except.error (.indexError "list index out of range"))
    ∧ (selectDivs "paper-topics" item = [] →
        get_topics_list item = Except.error (.indexError "list index out of range"))
    ∧ (selectDivs "paper-abstract" item = [] →
        get_abstract item = Except.error (.indexError "list index out of range"))
    ∧ (selectDivs "paper-pubdate" item = [] →
        get_date item = Except.error (.indexError "list index out of range"))
    ∧ (∀ dv rest, selectDivs "paper-author" item = dv :: rest → findFieldSpan dv = none →
        get_author_list item
          = Except.error (.attributeError "\x27NoneType\x27 object has no attribute \x27text\x27"))
    ∧ (∀ dv rest, selectDivs "paper-topics" item = dv :: rest → findFieldSpan dv = none →
        get_topics_list item
          = Except.error (.attributeError "\x27NoneType\x27 object has no attribute \x27text\x27"))
    ∧ (∀ dv rest, selectDivs "paper-pubdate" item = dv :: rest → findFieldSpan dv = none →
        get_date item
          = Except.error (.attributeError "\x27NoneType\x27 object has no attribute \x27text\x27")) := by
  refine ⟨fun h => by simp [get_author_list, h],
          fun h => by simp [get_topics_list, h],
          fun h => by simp [get_abstract, h],
          fun h => by simp [get_date, h],
          fun dv rest h1 h2 => by simp [get_author_list, h1, h2],
          fun dv rest h1 h2 => by simp [get_topics_list, h1, h2],
          fun dv rest h1 h2 => by simp [get_date, h1, h2]⟩

/-- Witness for C8 amended at concrete nodes: missing div gives the
IndexError constant, missing span gives the AttributeError constant. -/
theorem claim_C8_errors_witness :
    get_abstract c8NoSpan = Except.error (.indexError "list index out of range")
    ∧ get_author_list c8NoSpan
        = Except.error (.attributeError "\x27NoneType\x27 object has no attribute \x27text\x27")
    ∧ get_date c8NoSpan
        = Except.error (.attributeError "\x27NoneType\x27 object has no attribute \x27text\x27") := by
  refine ⟨((claim_C8_errors c8NoSpan).2.2.1) rfl, ?_, ?_⟩
  · exact (claim_C8_errors c8NoSpan).2.2.2.2.1 (.elem "div" ["paper-author"] [] [.text "A"]) [] rfl rfl
  · exact (claim_C8_errors c8NoSpan).2.2.2.2.2.2 (.elem "div" ["paper-pubdate"] [] [.text "5 May 2021"]) [] rfl rfl

theorem scrapeLoop_ok_decomp (ns : List Node) :
    ∀ (acc rs : List Paper), scrapeLoop ns acc = Except.ok rs →
      ∃ rs2, rs = acc ++ rs2
        ∧ List.Forall₂ (fun n p => convert_raw_paper_to_dict n = Except.ok p) ns rs2 := by
  induction ns with
  | nil =>
    intro acc rs h
    simp only [scrapeLoop, Except.ok.injEq] at h
    exact ⟨[], by simp [h], List.Forall₂.nil⟩
  | cons n ns ih =>
    intro acc rs h
    simp only [scrapeLoop] at h
    cases hc : convert_raw_paper_to_dict n with
    | error e => rw [hc] at h; cases h
    | ok p =>
      rw [hc] at h
      obtain ⟨rs2, hrs, hf⟩ := ih (acc ++ [p]) rs h
      exact ⟨p :: rs2, by simp [hrs], List.Forall₂.cons hc hf⟩

theorem scrapeLoop_all_ok (ns : List Node) :
    ∀ (acc rs2 : List Paper),
      List.Forall₂ (fun n p => convert_raw_paper_to_dict n = Except.ok p) ns rs2 →
      scrapeLoop ns acc = Except.ok (acc ++ rs2) := by
  induction ns with
  | nil =>
    intro acc rs2 hf
    cases hf
    simp [scrapeLoop]
  | cons n ns ih =>
    intro acc rs2 hf
    cases hf with
    | cons hp hf2 =>
      rename_i p ps
      simp only [scrapeLoop, hp]
      simpa [List.append_assoc] using ih (acc ++ [p]) ps hf2

theorem scrapeLoop_first_error (pre : List Node) :
    ∀ (acc : List Paper) (bad : Node) (post : List Node) (e : PyErr),
      (∀ n ∈ pre, ∃ p, convert_raw_paper_to_dict n = Except.ok p) →
      convert_raw_paper_to_dict bad = Except.error e →
      scrapeLoop (pre ++ bad :: post) acc = Except.error e := by
  induction pre with
  | nil =>
    intro acc bad post e _ hbad
    simp [scrapeLoop, hbad]
  | cons n pre ih =>
    intro acc bad post e hpre hbad
    obtain ⟨p, hp⟩ := hpre n (by simp)
    simp only [List.cons_append, scrapeLoop, hp]
    exact ih (acc ++ [p]) bad post e (fun m hm => hpre m (by simp [hm])) hbad

/-- C3: when no element carries the results marker, extraction (and the
whole pipeline) fails with the error raised on the missing container and
never silently yields zero records; and when a container is present, the
pipeline returns the empty sequence exactly when the container holds zero
li items. -/
theorem claim_C3_container (page : Node) :
    (findFirstNode (bs4ClassMatch "search-results") page = none →
        extract_raw_search_results page
          = Except.error (.attributeError "\x27NoneType\x27 object has no attribute \x27find_all\x27")
        ∧ scrape_doc page
          = Except.error (.attributeError "\x27NoneType\x27 object has no attribute \x27find_all\x27"))
    ∧ (∀ container, findFirstNode (bs4ClassMatch "search-results") page = some container →
        (scrape_doc page = Except.ok [] ↔ findAllTag "li" container = [])) := by
  constructor
  · intro h
    constructor
    · simp [extract_raw_search_results, h]
    · simp [scrape_doc, extract_raw_search_results, h]
  · intro container h
    have hx : extract_raw_search_results page = Except.ok (findAllTag "li" container) := by
      simp [extract_raw_search_results, h]
    constructor
    · intro hok
      have hloop : scrapeLoop (findAllTag "li" container) [] = Except.ok [] := by
        simpa [scrape_doc, hx] using hok
      obtain ⟨rs2, hrs, hf⟩ := scrapeLoop_ok_decomp _ [] [] hloop
      have : rs2 = [] := by simpa using hrs.symm
      subst this
      cases hf2 : findAllTag "li" container with
      | nil => rfl
      | cons x xs => rw [hf2] at hf; cases hf
    · intro hnil
      simp [scrape_doc, hx, hnil, scrapeLoop]

/-- Witness for C3: the missing container aborts the pipeline with the
error, and a present-but-empty container yields the empty sequence. -/
theorem claim_C3_container_witness :
    scrape_doc c3NoContainer
      = Except.error (.attributeError "\x27NoneType\x27 object has no attribute \x27find_all\x27")
    ∧ scrape_doc c3EmptyContainer = Except.ok [] := by
  constructor
  · exact ((claim_C3_container c3NoContainer).1 rfl).2
  · exact ((claim_C3_container c3EmptyContainer).2
      (.elem "div" ["search-results"] [] [.elem "p" [] [] [.text "none"]]) rfl).2 rfl

/-- C4: when extraction succeeds, the output is one record per located
listing node, related pairwise in order (Forall2 pairs the i-th node with
the i-th record, so document order is output order with no sorting or
deduplication), and its length equals the number of located nodes. -/
theorem claim_C4_order (page : Node) (ns : List Node) (rs : List Paper)
    (hx : extract_raw_search_results page = Except.ok ns)
    (hs : scrape_doc page = Except.ok rs) :
    rs.length = ns.length
    ∧ List.Forall₂ (fun n p => convert_raw_paper_to_dict n = Except.ok p) ns rs := by
  have hloop : scrapeLoop ns [] = Except.ok rs := by
    simpa [scrape_doc, hx] using hs
  obtain ⟨rs2, hrs, hf⟩ := scrapeLoop_ok_decomp ns [] rs hloop
  have : rs = rs2 := by simpa using hrs
  subst this
  exact ⟨hf.length_eq.symm, hf⟩

/-- Witness for C4 on a two-listing document: two nodes give two records,
paired in document order. -/
theorem claim_C4_order_witness :
    ([c4PaperA, c4PaperB] : List Paper).length = ([c4ItemA, c4ItemB] : List Node).length
    ∧ List.Forall₂ (fun n p => convert_raw_paper_to_dict n = Except.ok p)
        [c4ItemA, c4ItemB] [c4PaperA, c4PaperB] :=
  claim_C4_order c4Doc [c4ItemA, c4ItemB] [c4PaperA, c4PaperB] rfl rfl

/-- C5: if converting any single listing node fails while every earlier
node converts, the whole extraction fails with that originating error; in
particular no partial record sequence is emitted (the result is the error,
not a list). -/
theorem claim_C5_failfast (page : Node) (pre : List Node) (bad : Node) (post : List Node)
    (e : PyErr)
    (hx : extract_raw_search_results page = Except.ok (pre ++ bad :: post))
    (hpre : ∀ n ∈ pre, ∃ p, convert_raw_paper_to_dict n = Except.ok p)
    (hbad : convert_raw_paper_to_dict bad = Except.error e) :
    scrape_doc page = Except.error e := by
  simp [scrape_doc, hx, scrapeLoop_first_error pre [] bad post e hpre hbad]

/-- Witness for C5: with a good listing before it, the heading-less second
listing aborts the whole pipeline with its AttributeError and no list of
records is produced. -/
theorem claim_C5_failfast_witness :
    scrape_doc c5Doc
      = Except.error (.attributeError "\x27NoneType\x27 object has no attribute \x27text\x27") := by
  refine claim_C5_failfast c5Doc [c5Good] c5Bad [c5Post] _ rfl ?_ rfl
  intro n hn
  simp only [List.mem_singleton] at hn
  subst hn
  exact ⟨{ title := "G", url := "https://www.nla.gov.au/pub/7", authors := ["A"],
           date := "2022-03-02", abstract := "B", topics := ["T"] }, rfl⟩

/-- C6 counterexample: the class attribute "xsearch-resultsz" contains the
marker "search-results" as a substring, so by the claim the container
lookup should find the element; but the lookup matches whole class tokens,
finds nothing, and extraction errors out. -/
theorem claim_C6_counterexample :
    hasSubChars "search-results".toList (joinClasses ["xsearch-resultsz"]) = true
    ∧ findFirstNode (bs4ClassMatch "search-results") c6Doc = none
    ∧ extract_raw_search_results c6Doc
        = Except.error (.attributeError "\x27NoneType\x27 object has no attribute \x27find_all\x27") :=
  ⟨by decide, rfl, rfl⟩

/-- C6 amended: only the four field lookups use substring matching - the
select step returns exactly the descendant divs whose serialised class
attribute contains the marker anywhere, even inside a longer token.  The
results-container lookup instead matches whole class tokens: any element
it returns carries "search-results" as one of its class tokens, so an
element holding the marker only inside a longer token can never be found
by it. -/
theorem claim_C6_markers :
    (∀ (marker : String) (item m : Node),
        m ∈ selectDivs marker item ↔
          (m ∈ descendants item ∧ isElem m = true ∧ tagOf m = "div"
            ∧ hasSubChars marker.toList (joinClasses (classesOf m)) = true))
    ∧ (∀ (page c : Node),
        findFirstNode (bs4ClassMatch "search-results") page = some c →
        (classesOf c).contains "search-results" = true) := by
  constructor
  · intro marker item m
    simp only [selectDivs, findAllNodes, List.mem_filter, Bool.and_eq_true, beq_iff_eq]
    tauto
  · intro page c h
    have hc : bs4ClassMatch "search-results" c = true := by
      unfold findFirstNode findAllNodes at h
      cases hf : List.filter (bs4ClassMatch "search-results") (descendants page) with
      | nil => rw [hf] at h; cases h
      | cons x xs =>
        rw [hf, List.head?_cons] at h
        have hx : x ∈ List.filter (bs4ClassMatch "search-results") (descendants page) := by
          rw [hf]; exact List.mem_cons_self x xs
        have := (List.mem_filter.mp hx).2
        injection h with h2
        rwa [← h2]
    cases c with
    | text s => simp [bs4ClassMatch] at hc
    | elem tg cs at2 ch =>
      simp only [bs4ClassMatch] at hc
      have hsp : hasSpaceChar "search-results" = false := by decide
      rw [hsp] at hc
      simpa [classesOf] using hc

/-- Witness for C6 amended: the buried field marker is still selected, and
the element the container lookup finds carries the marker as a whole
token. -/
theorem claim_C6_markers_witness :
    (Node.elem "div" ["xpaper-authorz"] [] [] ∈ selectDivs "paper-author" c6FieldItem)
    ∧ (classesOf (Node.elem "div" ["a", "search-results", "b"] [] [.elem "li" [] [] []])).contains
        "search-results" = true := by
  constructor
  · exact (claim_C6_markers.1 "paper-author" c6FieldItem _).mpr
      ⟨List.mem_cons_self _ _, rfl, rfl, by decide⟩
  · exact claim_C6_markers.2 c6TokenDoc _ rfl

theorem ws_not_digit {c : Char} (h : isPyWs c = true) : pyDigit c = false := by
  simp only [isPyWs, Bool.or_eq_true, beq_iff_eq] at h
  simp only [pyDigit, Bool.and_eq_false_iff, decide_eq_false_iff_not, not_le]
  omega

theorem digit_not_ws {c : Char} (h : pyDigit c = true) : isPyWs c = false := by
  simp only [pyDigit, Bool.and_eq_true, decide_eq_true_eq] at h
  simp only [isPyWs, Bool.or_eq_false_iff, beq_eq_false_iff_ne, ne_eq]
  omega

theorem lowerN_cases (n k : Nat) (h : lowerN n = k) :
    n = k ∨ (65 ≤ n ∧ n ≤ 90 ∧ n + 32 = k) := by
  unfold lowerN at h
  split at h
  · omega
  · omega

theorem ciChar_letter_not_ws {c t : Char} (h : ciChar c t = true) (ht : 97 ≤ t.toNat) :
    isPyWs c = false := by
  simp only [ciChar, beq_iff_eq] at h
  rcases lowerN_cases _ _ h with h2 | h2
  · simp only [isPyWs, Bool.or_eq_false_iff, beq_eq_false_iff_ne, ne_eq]
    omega
  · simp only [isPyWs, Bool.or_eq_false_iff, beq_eq_false_iff_ne, ne_eq]
    omega

theorem ciChar_letter_not_digit {c t : Char} (h : ciChar c t = true) (ht : 97 ≤ t.toNat) :
    pyDigit c = false := by
  simp only [ciChar, beq_iff_eq] at h
  rcases lowerN_cases _ _ h with h2 | h2
  · simp only [pyDigit, Bool.and_eq_false_iff, decide_eq_false_iff_not, not_le]
    omega
  · simp only [pyDigit, Bool.and_eq_false_iff, decide_eq_false_iff_not, not_le]
    omega

theorem ws_lowerN_lt {c : Char} (h : isPyWs c = true) : lowerN c.toNat < 97 := by
  simp only [isPyWs, Bool.or_eq_true, beq_iff_eq] at h
  unfold lowerN
  split <;> omega

theorem takeWhile_append_eq {p : Char → Bool} (a b : List Char)
    (ha : ∀ c ∈ a, p c = true) (hb : ∀ c, b.head? = some c → p c = false) :
    (a ++ b).takeWhile p = a ∧ (a ++ b).dropWhile p = b := by
  induction a with
  | nil =>
    simp only [List.nil_append]
    cases b with
    | nil => simp
    | cons c cs =>
      have hc := hb c rfl
      simp [List.takeWhile_cons, List.dropWhile_cons, hc]
  | cons x xs ih =>
    have hx : p x = true := ha x (List.mem_cons_self _ _)
    have h2 := ih (fun c hc => ha c (List.mem_cons_of_mem _ hc))
    simp [List.takeWhile_cons, List.dropWhile_cons, hx, h2.1, h2.2]

theorem ciSame_length : ∀ (l t : List Char), ciSame l t = true → l.length = t.length
  | [], [], _ => rfl
  | [], _ :: _, h => by simp [ciSame] at h
  | _ :: _, [], h => by simp [ciSame] at h
  | c :: cs, t :: ts, h => by
    simp only [ciSame, Bool.and_eq_true] at h
    simp [ciSame_length cs ts h.2]

theorem ciStarts_append_of_ciSame :
    ∀ (l t r : List Char), ciSame l t = true → ciStarts t (l ++ r) = true
  | [], [], r, _ => rfl
  | [], _ :: _, _, h => by simp [ciSame] at h
  | _ :: _, [], _, _ => rfl
  | c :: cs, t :: ts, r, h => by
    simp only [ciSame, Bool.and_eq_true] at h
    simp only [List.cons_append, ciStarts, Bool.and_eq_true]
    exact ⟨h.1, ciStarts_append_of_ciSame cs ts r h.2⟩

theorem ciSame_take_of_ciStarts :
    ∀ (t l : List Char), ciStarts t l = true → ciSame (l.take t.length) t = true
  | [], l, _ => by simp [ciSame]
  | _ :: _, [], h => by simp [ciStarts] at h
  | t :: ts, c :: cs, h => by
    simp only [ciStarts, Bool.and_eq_true] at h
    simp only [List.length_cons, List.take_succ_cons, ciSame, Bool.and_eq_true]
    exact ⟨h.1, ciSame_take_of_ciStarts ts cs h.2⟩

theorem charToNat_inj {a b : Char} (h : a.toNat = b.toNat) : a = b := by
  have ha := Char.ofNat_toNat a
  have hb := Char.ofNat_toNat b
  rw [← ha, ← hb, h]

theorem ciStarts_agree_of_ciSame :
    ∀ (t l n r : List Char), ciStarts t (l ++ r) = true → ciSame l n = true →
      t.length ≤ n.length → startsWithChars t n = true
  | [], _, _, _, _, _, _ => rfl
  | a :: as, [], n, r, _, hsame, hlen => by
    cases n with
    | nil => simp at hlen
    | cons x xs => simp [ciSame] at hsame
  | a :: as, c :: cs, n, r, hst, hsame, hlen => by
    cases n with
    | nil => simp [ciSame] at hsame
    | cons x xs =>
      simp only [List.cons_append, ciStarts, Bool.and_eq_true] at hst
      simp only [ciSame, Bool.and_eq_true] at hsame
      simp only [List.length_cons, Nat.succ_le_succ_iff] at hlen
      simp only [startsWithChars, Bool.and_eq_true, beq_iff_eq]
      refine ⟨?_, ciStarts_agree_of_ciSame as cs xs r hst.2 hsame.2 hlen⟩
      have h1 : lowerN c.toNat = a.toNat := by simpa [ciChar] using hst.1
      have h2 : lowerN c.toNat = x.toNat := by simpa [ciChar] using hsame.1
      exact charToNat_inj (h1.symm.trans h2)

theorem ciStarts_drop_spill :
    ∀ (l t r : List Char), ciStarts t (l ++ r) = true → l.length < t.length →
      ciStarts (t.drop l.length) r = true
  | [], t, r, h, _ => by simpa using h
  | c :: cs, [], r, _, hlen => by simp at hlen
  | c :: cs, a :: as, r, h, hlen => by
    simp only [List.cons_append, ciStarts, Bool.and_eq_true] at h
    simp only [List.length_cons] at hlen
    simpa using ciStarts_drop_spill cs as r h.2 (by omega)

theorem tryMonths_sound :
    ∀ (table : List (Nat × List Char)) (l : List Char) (m : Nat) (r : List Char),
      tryMonths table l = some (m, r) →
      ∃ name ml, (m, name) ∈ table ∧ l = ml ++ r ∧ ciSame ml name = true := by
  intro table
  induction table with
  | nil => intro l m r h; cases h
  | cons e tl ih =>
    intro l m r h
    obtain ⟨m0, n0⟩ := e
    simp only [tryMonths] at h
    by_cases hs : ciStarts n0 l = true
    · rw [if_pos hs] at h
      injection h with h2
      rw [Prod.mk.injEq] at h2
      obtain ⟨hm, hr⟩ := h2
      subst hm
      refine ⟨n0, l.take n0.length, List.mem_cons_self _ _, ?_, ciSame_take_of_ciStarts n0 l hs⟩
      rw [← hr, List.take_append_drop]
    · rw [if_neg hs] at h
      obtain ⟨name, ml, hmem, he, hc⟩ := ih l m r h
      exact ⟨name, ml, List.mem_cons_of_mem _ hmem, he, hc⟩

theorem tryMonths_complete :
    ∀ (table : List (Nat × List Char)) (l r : List Char) (m : Nat) (name : List Char),
      (m, name) ∈ table → ciSame l name = true →
      (∀ e ∈ table, e.2 ≠ [] ∧ ∀ c ∈ e.2, 97 ≤ c.toNat ∧ c.toNat ≤ 122) →
      List.Pairwise
        (fun a b : Nat × List Char =>
          startsWithChars a.2 b.2 = false ∧ startsWithChars b.2 a.2 = false) table →
      (∀ c, r.head? = some c → lowerN c.toNat < 97) →
      tryMonths table (l ++ r) = some (m, r) := by
  intro table
  induction table with
  | nil => intro l r m name hmem; cases hmem
  | cons e tl ih =>
    intro l r m name hmem hsame hlet hpw hr
    obtain ⟨m0, n0⟩ := e
    rcases List.mem_cons.mp hmem with heq | htl
    · rw [Prod.mk.injEq] at heq
      obtain ⟨hm, hn⟩ := heq
      subst hm
      subst hn
      have hst : ciStarts name (l ++ r) = true := ciStarts_append_of_ciSame l name r hsame
      have hlen : name.length = l.length := (ciSame_length l name hsame).symm
      simp only [tryMonths, if_pos hst]
      rw [hlen, List.drop_left]
    · have hfalse : ciStarts n0 (l ++ r) = false := by
        by_contra hcon
        have hst : ciStarts n0 (l ++ r) = true := by
          cases hx : ciStarts n0 (l ++ r)
          · exact absurd hx hcon
          · rfl
        have hlen : l.length = name.length := ciSame_length l name hsame
        rcases le_or_lt n0.length l.length with hle | hlt
        · have hagree : startsWithChars n0 name = true :=
            ciStarts_agree_of_ciSame n0 l name r hst hsame (by omega)
          have hpair := (List.pairwise_cons.mp hpw).1 (m, name) htl
          rw [hagree] at hpair
          exact absurd hpair.1 (by simp)
        · have hspill := ciStarts_drop_spill l n0 r hst hlt
          cases hd : n0.drop l.length with
          | nil =>
            have : n0.length - l.length = 0 := by
              have := congrArg List.length hd
              simpa using this
            omega
          | cons a as =>
            rw [hd] at hspill
            cases r with
            | nil => simp [ciStarts] at hspill
            | cons c cs =>
              simp only [ciStarts, Bool.and_eq_true] at hspill
              have hmema : a ∈ n0 := by
                have : a ∈ n0.drop l.length := by rw [hd]; exact List.mem_cons_self _ _
                exact List.mem_of_mem_drop this
              have hlett := ((hlet (m0, n0) (List.mem_cons_self _ _)).2 a hmema).1
              have hlow : lowerN c.toNat = a.toNat := by simpa [ciChar] using hspill.1
              have := hr c rfl
              omega
      simp only [tryMonths, hfalse]
      simp only [Bool.false_eq_true, if_false]
      exact ih l r m name htl hsame (fun e he => hlet e (List.mem_cons_of_mem _ he))
        (List.pairwise_cons.mp hpw).2 hr

theorem monthTable_letters :
    ∀ e ∈ monthTable, e.2 ≠ [] ∧ ∀ c ∈ e.2, 97 ≤ c.toNat ∧ c.toNat ≤ 122 := by decide

theorem monthTable_pairwise :
    List.Pairwise
      (fun a b : Nat × List Char =>
        startsWithChars a.2 b.2 = false ∧ startsWithChars b.2 a.2 = false) monthTable := by
  decide

theorem monthTable_mem (m : Nat) (h1 : 1 ≤ m) (h2 : m ≤ 12) :
    (m, monthLower m) ∈ monthTable := by
  interval_cases m <;> simp [monthTable]

theorem monthTable_mem_inv :
    ∀ e ∈ monthTable, 1 ≤ e.1 ∧ e.1 ≤ 12 ∧ e.2 = monthLower e.1 := by decide

theorem monthLower_ne_nil (m : Nat) (h1 : 1 ≤ m) (h2 : m ≤ 12) : monthLower m ≠ [] := by
  interval_cases m <;> decide

theorem monthLower_head_letter (m : Nat) (h1 : 1 ≤ m) (h2 : m ≤ 12) :
    ∀ t ts, monthLower m = t :: ts → 97 ≤ t.toNat := by
  interval_cases m <;> (intro t ts h; injection h with h1 h2; rw [← h1]; decide)

theorem parseDBY_complete (dl w1 ml w2 yl : List Char) (y m d : Nat)
    (hd : DaySpec dl d) (hw1 : WsRun w1) (hm : MonthSpec ml m) (hw2 : WsRun w2)
    (hy : YearSpec yl y) :
    parseDBY (dl ++ w1 ++ ml ++ w2 ++ yl) = some (y, m, d) := by
  obtain ⟨hddig, hdval, hd1, hd31, hdlen⟩ := hd
  obtain ⟨hw1ne, hw1ws⟩ := hw1
  obtain ⟨hm1, hm12, hmci⟩ := hm
  obtain ⟨hw2ne, hw2ws⟩ := hw2
  obtain ⟨hydig, hyval, hylen⟩ := hy
  cases w1 with
  | nil => exact absurd rfl hw1ne
  | cons wc wt =>
  cases w2 with
  | nil => exact absurd rfl hw2ne
  | cons sc st =>
  cases yl with
  | nil => simp at hylen
  | cons yc yt =>
  have hwc : isPyWs wc = true := hw1ws wc (List.mem_cons_self _ _)
  have hsc : isPyWs sc = true := hw2ws sc (List.mem_cons_self _ _)
  have hyc : pyDigit yc = true := hydig yc (List.mem_cons_self _ _)
  have hmcfact : ∀ mc mt, ml = mc :: mt → isPyWs mc = false := by
    intro mc mt hml
    cases hmn : monthLower m with
    | nil => exact absurd hmn (monthLower_ne_nil m hm1 hm12)
    | cons t ts =>
      rw [hml, hmn] at hmci
      simp only [ciSame, Bool.and_eq_true] at hmci
      exact ciChar_letter_not_ws hmci.1 (monthLower_head_letter m hm1 hm12 t ts hmn)
  cases ml with
  | nil =>
    have := ciSame_length _ _ hmci
    have h2 := monthLower_ne_nil m hm1 hm12
    cases hmn : monthLower m with
    | nil => exact absurd hmn h2
    | cons t ts => rw [hmn] at this; simp at this
  | cons mc mt =>
  have hmc : isPyWs mc = false := hmcfact mc mt rfl
  have harr : dl ++ (wc :: wt) ++ (mc :: mt) ++ (sc :: st) ++ (yc :: yt)
      = dl ++ ((wc :: wt) ++ ((mc :: mt) ++ ((sc :: st) ++ (yc :: yt)))) := by
    simp [List.append_assoc]
  rw [harr]
  have h1 := takeWhile_append_eq (p := pyDigit) dl
    ((wc :: wt) ++ ((mc :: mt) ++ ((sc :: st) ++ (yc :: yt)))) hddig
    (by
      intro c hc
      simp only [List.cons_append, List.head?_cons, Option.some.injEq] at hc
      rw [← hc]
      exact ws_not_digit hwc)
  have h2 := takeWhile_append_eq (p := isPyWs) (wc :: wt)
    ((mc :: mt) ++ ((sc :: st) ++ (yc :: yt))) hw1ws
    (by
      intro c hc
      simp only [List.cons_append, List.head?_cons, Option.some.injEq] at hc
      rw [← hc]
      exact hmc)
  have h3 := takeWhile_append_eq (p := isPyWs) (sc :: st) (yc :: yt) hw2ws
    (by
      intro c hc
      simp only [List.head?_cons, Option.some.injEq] at hc
      rw [← hc]
      exact digit_not_ws hyc)
  have htm : tryMonths monthTable ((mc :: mt) ++ ((sc :: st) ++ (yc :: yt)))
      = some (m, (sc :: st) ++ (yc :: yt)) :=
    tryMonths_complete monthTable (mc :: mt) ((sc :: st) ++ (yc :: yt)) m (monthLower m)
      (monthTable_mem m hm1 hm12) hmci monthTable_letters monthTable_pairwise
      (by
        intro c hc
        simp only [List.cons_append, List.head?_cons, Option.some.injEq] at hc
        rw [← hc]
        exact ws_lowerN_lt hsc)
  simp only [parseDBY]
  rw [h1.1, h1.2]
  rw [if_pos (by refine ⟨by omega, by omega, by omega, by omega⟩)]
  simp only [List.cons_append] at h2 h3 htm ⊢
  rw [if_pos hwc]
  rw [h2.2]
  rw [htm]
  have hfin : ((yc :: yt).length == 4 && (yc :: yt).all pyDigit) = true := by
    rw [List.all_eq_true.mpr hydig, hylen]
    rfl
  simp only [hsc, if_true, h3.2, hfin, hyval, hdval]

theorem parseDBY_sound (s : List Char) (y m d : Nat) (h : parseDBY s = some (y, m, d)) :
    DateTextForm s y m d ∧ 1 ≤ d ∧ d ≤ 31 := by
  simp only [parseDBY] at h
  split at h
  case isFalse => simp at h
  case isTrue hcond =>
  split at h
  case h_1 => simp at h
  case h_2 c t heq1 =>
  split at h
  case isFalse => simp at h
  case isTrue hws1 =>
  split at h
  case h_1 => simp at h
  case h_2 m0 r3 heq2 =>
  split at h
  case h_1 => simp at h
  case h_2 c2 t2 =>
  split at h
  case isFalse => simp at h
  case isTrue hws2 =>
  split at h
  case isFalse => simp at h
  case isTrue hfin =>
  simp only [Option.some.injEq, Prod.mk.injEq] at h
  obtain ⟨hyv, hmv, hdv⟩ := h
  subst hmv
  obtain ⟨hl1, hl2, hv1, hv31⟩ := hcond
  have hsplit : s = s.takeWhile pyDigit ++ (c :: t) := by
    rw [← heq1, List.takeWhile_append_dropWhile]
  have hw1split : (c :: t) = (c :: t).takeWhile isPyWs ++ (c :: t).dropWhile isPyWs := by
    rw [List.takeWhile_append_dropWhile]
  rw [heq1] at heq2
  obtain ⟨name, ml, hmem, hmlsplit, hci⟩ :=
    tryMonths_sound monthTable ((c :: t).dropWhile isPyWs) m0 (c2 :: t2) heq2
  have hminv := monthTable_mem_inv (m0, name) hmem
  have hm1 : 1 ≤ m0 := hminv.1
  have hm12 : m0 ≤ 12 := hminv.2.1
  have hname : name = monthLower m0 := hminv.2.2
  have hw2split : (c2 :: t2) = (c2 :: t2).takeWhile isPyWs ++ (c2 :: t2).dropWhile isPyWs := by
    rw [List.takeWhile_append_dropWhile]
  have hfin2 : ((c2 :: t2).dropWhile isPyWs).length = 4
      ∧ ∀ x ∈ (c2 :: t2).dropWhile isPyWs, pyDigit x = true := by
    rw [Bool.and_eq_true] at hfin
    exact ⟨by simpa using hfin.1, List.all_eq_true.mp hfin.2⟩
  refine ⟨⟨s.takeWhile pyDigit, (c :: t).takeWhile isPyWs, ml,
      (c2 :: t2).takeWhile isPyWs, (c2 :: t2).dropWhile isPyWs, ?_, ?_, ?_, ?_, ?_, ?_⟩,
    by omega, by omega⟩
  · simp only [List.append_assoc]
    rw [← hw2split, ← hmlsplit, ← hw1split, ← hsplit]
  · exact ⟨fun x hx => List.mem_takeWhile_imp hx, hdv, by omega, by omega, by omega⟩
  · constructor
    · simp [List.takeWhile_cons, hws1]
    · intro x hx
      exact List.mem_takeWhile_imp hx
  · exact ⟨hm1, hm12, by rw [← hname]; exact hci⟩
  · constructor
    · simp [List.takeWhile_cons, hws2]
    · intro x hx
      exact List.mem_takeWhile_imp hx
  · exact ⟨hfin2.2, hyv, hfin2.1⟩

/-- C1 counterexample: the claim sanctions "1 January 2020" and rejects
"2020-01-01", and `strictDateForm` captures exactly the claimed form; yet
the text "1 JANUARY 2020" is not of that form (its month is not the
English full month name "January") and `get_date` still succeeds on it
instead of failing with a date-parse error, because strptime matches month
names case-insensitively. -/
theorem claim_C1_counterexample :
    strictDateForm "1 January 2020" = true
    ∧ strictDateForm "2020-01-01" = false
    ∧ strictDateForm "1 JANUARY 2020" = false
    ∧ get_date c1Item = Except.ok "2020-01-01" :=
  ⟨by decide, by decide, by decide, rfl⟩

/-- C1 amended: whenever the pubdate lookup succeeds, `get_date` behaves as
follows on the stripped span text.  If the text consists of an
unpadded-or-two-digit day (1..31), whitespace, a full English month name
matched case-insensitively, whitespace, and a four-digit year, and that
triple names a valid calendar date (year at least 1, day within the
month), then `get_date` returns the ISO-8601 rendering of that date;
on every other text it fails with a ValueError-style date-parse error
rather than returning a default value. -/
theorem claim_C1_date (item dv sp : Node) (rest : List Node)
    (hsel : selectDivs "paper-pubdate" item = dv :: rest)
    (hspan : findFieldSpan dv = some sp) :
    (∀ y m d, DateTextForm (stripWs (nodeTextChars sp)) y m d →
        1 ≤ y → d ≤ monthLen y m →
        get_date item = Except.ok (isoFmt y m d))
    ∧ ((¬ ∃ y m d, DateTextForm (stripWs (nodeTextChars sp)) y m d
          ∧ 1 ≤ y ∧ d ≤ monthLen y m) →
        ∃ msg, get_date item = Except.error (.valueError msg)) := by
  have hg : get_date item = strptimeToIso (stripWs (nodeTextChars sp)) := by
    simp [get_date, hsel, hspan]
  constructor
  · intro y m d hform hy hdm
    obtain ⟨dl, w1, ml, w2, yl, hs, hd, hw1, hm, hw2, hyl⟩ := hform
    have hp : parseDBY (stripWs (nodeTextChars sp)) = some (y, m, d) := by
      rw [hs]
      exact parseDBY_complete dl w1 ml w2 yl y m d hd hw1 hm hw2 hyl
    rw [hg]
    simp only [strptimeToIso, hp]
    rw [if_neg (by omega), if_pos hdm]
  · intro hnone
    rw [hg]
    cases hp : parseDBY (stripWs (nodeTextChars sp)) with
    | none =>
      refine ⟨"time data \x27" ++ (stripWs (nodeTextChars sp)).asString
        ++ "\x27 does not match format \x27%d %B %Y\x27", ?_⟩
      simp [strptimeToIso, hp]
    | some tri =>
      obtain ⟨y, m, d⟩ := tri
      obtain ⟨hform, hd1, _⟩ := parseDBY_sound _ y m d hp
      by_cases hy : y = 0
      · refine ⟨"year 0 is out of range", ?_⟩
        simp [strptimeToIso, hp, hy]
      · have hnd : ¬ (d ≤ monthLen y m) := fun hle => hnone ⟨y, m, d, hform, by omega, hle⟩
        refine ⟨"day is out of range for month", ?_⟩
        simp only [strptimeToIso, hp]
        rw [if_neg hy, if_neg hnd]

/-- Witness for C1 amended: the decomposed form of "05 May 2021" makes
`get_date` return "2021-05-05". -/
theorem claim_C1_date_witness : get_date c1WItem = Except.ok "2021-05-05" := by
  have h := (claim_C1_date c1WItem
    (.elem "div" ["paper-pubdate"] [] [.elem "span" ["field-content"] [] [.text "05 May 2021"]])
    (.elem "span" ["field-content"] [] [.text "05 May 2021"]) [] rfl rfl).1 2021 5 5
    ⟨['0', '5'], [' '], ['M', 'a', 'y'], [' '], ['2', '0', '2', '1'], by decide,
      by unfold DaySpec; decide, by unfold WsRun; decide, by unfold MonthSpec; decide,
      by unfold WsRun; decide, by unfold YearSpec; decide⟩
    (by omega) (by decide)
  exact h
